import Mathlib

/-!
# todo-app: request authentication layer

A shallow embedding of `internal/handler/middleware.go`, `internal/handler/response.go`
and `user.go`, together with the library behaviour these files rely on
(`strings.SplitN`, the `gin.Context` operations `GetHeader`, `Set`, `Get`,
`AbortWithStatusJSON`, the logrus error log and the `json` struct tags).

Go `string` values are Lean `String`s, Go `int` values are `Int` (no arithmetic is
performed on them), a Go `error` is `Option GoError` with `none` for `nil`.
Effects are explicit: every operation maps a `World` to a `World`.
-/

namespace TodoApp

/-! ## Values -/

/-- A JSON document as produced by `encoding/json`. -/
inductive JSON where
  | null : JSON
  | num : Int → JSON
  | str : String → JSON
  | obj : List (String × JSON) → JSON
  deriving Repr

/-- The keys of a JSON object, in order; empty for other documents. -/
def JSON.keys : JSON → List String
  | .obj kvs => kvs.map Prod.fst
  | _ => []

/-- A non-nil Go `error` value, as built by `errors.New`. -/
structure GoError where
  msg : String
  deriving DecidableEq, Repr

/-- A value of Go type `any` (`interface{}`): the dynamic type and the value.
Only `int` matters to the handlers; every other dynamic type is kept apart
from it, so that the assertion `id.(int)` fails on it. -/
inductive GoAny where
  | int : Int → GoAny
  | int64 : Int → GoAny
  | string : String → GoAny
  | bool : Bool → GoAny
  | nil : GoAny
  deriving DecidableEq, Repr

/-! ## strings.SplitN -/

/-- Cut `s` at the first occurrence of the non-empty separator `sep`
(`strings.Index` followed by the two slices `s[:m]` and `s[m+len(sep):]`);
`none` when `sep` does not occur. -/
def cutAt (sep : List Char) : List Char → Option (List Char × List Char)
  | [] => if sep.isPrefixOf [] then some ([], []) else none
  | c :: cs =>
    if sep.isPrefixOf (c :: cs) then some ([], (c :: cs).drop sep.length)
    else match cutAt sep cs with
      | some (a, b) => some (c :: a, b)
      | none => none

/-- The loop of `genSplit`: at most `k` cuts, the rest of the string is the
last piece. -/
def genSplit (sep : List Char) : Nat → List Char → List (List Char)
  | 0, s => [s]
  | k + 1, s =>
    match cutAt sep s with
    | none => [s]
    | some (a, rest) => a :: genSplit sep k rest

/-- Go `strings.SplitN(s, sep, n)` for a non-empty `sep` and `n ≥ 0`: `nil` for
`n = 0`, otherwise at most `n` pieces (`n` is first capped by `len(s) + 1`,
the length in bytes), the last one being the unsplit remainder. The only
separator in use is the space, one byte and one character, so cutting the
character sequence and cutting the UTF-8 bytes give the same pieces. -/
def SplitN (s sep : String) (n : Nat) : List String :=
  if n = 0 then []
  else (genSplit sep.data (min n (s.utf8ByteSize + 1) - 1) s.data).map String.mk

/-! ## The request context and its environment -/

/-- What `AbortWithStatusJSON` sends: an HTTP status code and a JSON body. -/
structure Response where
  status : Nat
  body : JSON
  deriving Repr

/-- The state a handler runs in. `Header`, `Keys` and `aborted` are the parts of
`gin.Context` the handlers touch (`c.Request.Header`, `c.Keys`, and whether
`c.index` has reached `abortIndex`); `written` lists the responses sent through
the context, `errorLog` the messages logged at error level, and
`parseTokenCalls` the arguments `ParseToken` has been called with, all three
oldest first. -/
structure World where
  Header : String → List String
  Keys : String → Option GoAny
  aborted : Bool
  written : List Response
  errorLog : List String
  parseTokenCalls : List String

/-- The token service method `Authorization.ParseToken(token) (int, error)`,
which the handler receives through `h.services`. The service package declares
it; its first result is taken to be a Go `int`, the type of `User.Id` and the
one `getUserId` asserts. -/
abbrev TokenParser := String → Int × Option GoError

/-- The method `c.GetHeader(key)`: the first value of the header, `""` when the
header is absent. -/
def World.GetHeader (w : World) (key : String) : String :=
  (w.Header key).headD ""

/-- The method `c.Set(key, value)`. -/
def World.Set (w : World) (key : String) (value : GoAny) : World :=
  { w with Keys := fun k => if k = key then some value else w.Keys k }

/-- The method `c.Get(key)`: the value and whether it exists. -/
def World.Get (w : World) (key : String) : Option GoAny :=
  w.Keys key

/-- The method `c.AbortWithStatusJSON(code, obj)`: `Abort()` followed by
`JSON(code, obj)`. -/
def World.AbortWithStatusJSON (w : World) (code : Nat) (jsonObj : JSON) : World :=
  { w with aborted := true, written := w.written ++ [⟨code, jsonObj⟩] }

/-- The call `log.Error(message)`. -/
def logError (w : World) (message : String) : World :=
  { w with errorLog := w.errorLog ++ [message] }

/-- Run a chain of handlers the way `c.Next()` does for handlers that do not
call `Next` themselves: one after the other, stopping after a handler that
leaves the context aborted. -/
def runChain : List (World → World) → World → World
  | [], w => w
  | h :: rest, w =>
    let w1 := h w
    if w1.aborted then w1 else runChain rest w1

/-! ## internal/handler/response.go -/

/-- The struct `errorResponse`, one field tagged `json:"message"`. -/
structure errorResponse where
  Message : String
  deriving DecidableEq, Repr

/-- The JSON encoding of an `errorResponse`. -/
def errorResponse.toJSON (e : errorResponse) : JSON :=
  .obj [("message", .str e.Message)]

/-- The function `newErrorResponse` (response.go, lines 16-19): log the message
at error level, then abort with the status code and the envelope. -/
def newErrorResponse (w : World) (statusCode : Nat) (message : String) : World :=
  (logError w message).AbortWithStatusJSON statusCode (errorResponse.toJSON ⟨message⟩)

/-! ## internal/handler/middleware.go -/

def authorizationHeader : String := "Authorization"

def userCTX : String := "userId"

def StatusUnauthorized : Nat := 401

def StatusInternalServerError : Nat := 500

/-- The call `h.services.Authorization.ParseToken(token)`, recorded in the
world. -/
def callParseToken (ParseToken : TokenParser) (w : World) (token : String) :
    (Int × Option GoError) × World :=
  (ParseToken token, { w with parseTokenCalls := w.parseTokenCalls ++ [token] })

/-- The middleware `userIdentity` (middleware.go, lines 16-36). -/
def userIdentity (ParseToken : TokenParser) (w : World) : World :=
  let header := w.GetHeader authorizationHeader
  if header = "" then
    newErrorResponse w StatusUnauthorized "No authorization header"
  else
    let headerParts := SplitN header " " 2
    if headerParts.length ≠ 2 ∨ headerParts.getD 0 "" ≠ "Bearer" then
      newErrorResponse w StatusUnauthorized "Invalid authorization header"
    else
      match callParseToken ParseToken w (headerParts.getD 1 "") with
      | ((_, some _), w1) =>
        newErrorResponse w1 StatusUnauthorized "Invalid authorization header"
      | ((userId, none), w1) =>
        w1.Set userCTX (.int userId)

/-- The accessor `getUserId` (middleware.go, lines 38-52): the returned pair
`(int, error)` and the context after the call. -/
def getUserId (w : World) : (Int × Option GoError) × World :=
  match w.Get userCTX with
  | none =>
    ((0, some ⟨"User id not found"⟩),
      newErrorResponse w StatusInternalServerError "User id not found")
  | some id =>
    match id with
    | .int idInt => ((idInt, none), w)
    | _ =>
      ((0, some ⟨"User id not found"⟩),
        newErrorResponse w StatusInternalServerError "User id not found")

/-! ## user.go -/

/-- The struct `User` (user.go, lines 3-8). -/
structure User where
  Id : Int
  Name : String
  Username : String
  Password : String
  deriving DecidableEq, Repr

/-- A struct field as `encoding/json` sees it: the Go name, the content of the
`json:"..."` tag and the encoded value. -/
structure Field where
  name : String
  jsonTag : String
  value : JSON

/-- The fields of `User` with their `json` tags, in declaration order. -/
def User.fields (u : User) : List Field :=
  [ ⟨"Id", "-", .num u.Id⟩,
    ⟨"Name", "name", .str u.Name⟩,
    ⟨"Username", "username", .str u.Username⟩,
    ⟨"Password", "password", .str u.Password⟩ ]

/-- How `json.Marshal` encodes a struct whose tags carry no options: a field
tagged `-` is left out, a field with an empty tag is named by its Go name,
any other field by its tag. -/
def marshalFields (fs : List Field) : JSON :=
  .obj ((fs.filter (fun f => f.jsonTag ≠ "-")).map
    (fun f => (if f.jsonTag = "" then f.name else f.jsonTag, f.value)))

/-- The result of `json.Marshal` on a `User`. -/
def User.toJSON (u : User) : JSON :=
  marshalFields u.fields

/-! ## Test fixtures -/

/-- A request context as gin hands it to the first handler: the given
`Authorization` header values, no keys, not aborted, nothing written. -/
def freshWorld (auth : List String) : World :=
  { Header := fun k => if k = "Authorization" then auth else [],
    Keys := fun _ => none,
    aborted := false,
    written := [],
    errorLog := [],
    parseTokenCalls := [] }

/-! ## Predicates used in the statements -/

/-- Whether the header starts with the seven characters `Bearer` and one space,
compared character by character (case-sensitive), as `strings.HasPrefix` would. -/
def startsWithBearer (header : String) : Bool :=
  "Bearer ".data.isPrefixOf header.data

/-- The header shape of the specification: the scheme tag `Bearer`, one single
space, and exactly one token segment (non-empty, without a space). -/
def singleTokenBearer (header : String) : Prop :=
  ∃ tok : String, header = "Bearer " ++ tok ∧ tok ≠ "" ∧ ' ' ∉ tok.data

/-- The handler `userIdentity` rejects the request: it sends a response. -/
def rejects (ParseToken : TokenParser) (w : World) : Prop :=
  ∃ r : Response, (userIdentity ParseToken w).written = w.written ++ [r]

/-- Outcome (a) of the middleware on `w`: the request is not aborted, no
response was sent by the call, and the context holds an integer user id under
`userId`. -/
def proceedsWithIdentity (ParseToken : TokenParser) (w : World) : Prop :=
  (userIdentity ParseToken w).aborted = false ∧
  (userIdentity ParseToken w).written = w.written ∧
  ∃ u : Int, (userIdentity ParseToken w).Keys userCTX = some (.int u)

/-- Outcome (b) of the middleware on `w`: the request is aborted, the call sent
one response, with status 401, and the context holds no value under
`userId`. -/
def shortCircuitsUnauthorized (ParseToken : TokenParser) (w : World) : Prop :=
  (userIdentity ParseToken w).aborted = true ∧
  (∃ body : JSON, (userIdentity ParseToken w).written = w.written ++ [⟨401, body⟩]) ∧
  (userIdentity ParseToken w).Keys userCTX = none

/-! ## Lemmas on splitting -/

theorem cutAt_space_of_not_mem (s : List Char) (h : ' ' ∉ s) : cutAt [' '] s = none := by
  induction s with
  | nil => simp [cutAt, List.isPrefixOf]
  | cons c cs ih =>
    have hc : ' ' ≠ c := fun e => h (by rw [e]; exact List.mem_cons_self _ _)
    have hcs : ' ' ∉ cs := fun m => h (List.mem_cons_of_mem _ m)
    simp [cutAt, List.isPrefixOf, hc, ih hcs]

theorem cutAt_space_append (a b : List Char) (h : ' ' ∉ a) :
    cutAt [' '] (a ++ ' ' :: b) = some (a, b) := by
  induction a with
  | nil => simp [cutAt, List.isPrefixOf]
  | cons c cs ih =>
    have hc : ' ' ≠ c := fun e => h (by rw [e]; exact List.mem_cons_self _ _)
    have hcs : ' ' ∉ cs := fun m => h (List.mem_cons_of_mem _ m)
    simp [cutAt, List.isPrefixOf, hc, ih hcs]

theorem cutAt_space_some (s a b : List Char) (h : cutAt [' '] s = some (a, b)) :
    s = a ++ ' ' :: b ∧ ' ' ∉ a := by
  induction s generalizing a with
  | nil => simp [cutAt, List.isPrefixOf] at h
  | cons c cs ih =>
    by_cases hc : ' ' = c
    · subst hc
      simp [cutAt, List.isPrefixOf] at h
      obtain ⟨h1, h2⟩ := h
      subst h1; subst h2
      simp
    · have hfalse : List.isPrefixOf [' '] (c :: cs) = false := by
        simp [List.isPrefixOf, hc]
      rw [cutAt, hfalse] at h
      cases hr : cutAt [' '] cs with
      | none => simp [hr] at h
      | some p =>
        obtain ⟨a1, b1⟩ := p
        simp [hr] at h
        obtain ⟨h1, h2⟩ := h
        subst h1; subst h2
        obtain ⟨e, hn⟩ := ih a1 hr
        refine ⟨by simp [e], ?_⟩
        intro m
        rcases List.mem_cons.mp m with m | m
        · exact hc m
        · exact hn m

theorem utf8ByteSize_pos (s : String) (h : s ≠ "") : 0 < s.utf8ByteSize := by
  obtain ⟨l⟩ := s
  cases l with
  | nil => exact absurd rfl h
  | cons c cs =>
    have := Char.utf8Size_pos c
    simp [String.utf8ByteSize, String.utf8ByteSize.go]
    omega

theorem SplitN_space_two (s : String) (h : s ≠ "") :
    SplitN s " " 2 = (genSplit [' '] 1 s.data).map String.mk := by
  have hp := utf8ByteSize_pos s h
  have e : min 2 (s.utf8ByteSize + 1) - 1 = 1 := by omega
  simp [SplitN, e]

theorem bearer_ne_empty (t : String) : "Bearer " ++ t ≠ "" := by
  intro e
  have h := congrArg String.length e
  simp only [String.length_append] at h
  have h7 : ("Bearer " : String).length = 7 := by decide
  rw [h7] at h
  have h0 : ("" : String).length = 0 := by decide
  omega

theorem SplitN_bearer (t : String) : SplitN ("Bearer " ++ t) " " 2 = ["Bearer", t] := by
  have hne := bearer_ne_empty t
  have hd : ("Bearer " ++ t).data = "Bearer".data ++ ' ' :: t.data := by
    simp [String.data_append]
  have hn : ' ' ∉ "Bearer".data := by decide
  rw [SplitN_space_two _ hne, hd]
  simp only [genSplit, cutAt_space_append _ _ hn]
  rfl

theorem SplitN_not_bearer (s : String) (hne : s ≠ "") (h : ∀ t : String, s ≠ "Bearer " ++ t) :
    (SplitN s " " 2).length ≠ 2 ∨ (SplitN s " " 2).getD 0 "" ≠ "Bearer" := by
  rw [SplitN_space_two _ hne]
  cases hc : cutAt [' '] s.data with
  | none => left; simp [genSplit, hc]
  | some p =>
    obtain ⟨a, b⟩ := p
    right
    obtain ⟨e, -⟩ := cutAt_space_some _ _ _ hc
    simp only [genSplit, hc, List.map, List.getD_cons_zero]
    intro ha
    apply h (String.mk b)
    have ha2 : a = "Bearer".data := congrArg String.data ha
    apply String.ext
    rw [e, ha2]
    simp [String.data_append]

/-! ## The paths of userIdentity -/

theorem path_absent (P : TokenParser) (w : World)
    (h : w.GetHeader authorizationHeader = "") :
    userIdentity P w = newErrorResponse w StatusUnauthorized "No authorization header" := by
  simp [userIdentity, h]

theorem path_not_bearer (P : TokenParser) (w : World)
    (hne : w.GetHeader authorizationHeader ≠ "")
    (h : ∀ t : String, w.GetHeader authorizationHeader ≠ "Bearer " ++ t) :
    userIdentity P w = newErrorResponse w StatusUnauthorized "Invalid authorization header" := by
  have := SplitN_not_bearer _ hne h
  simp only [userIdentity, hne, if_false, this, if_true]

theorem path_bearer (P : TokenParser) (w : World) (t : String)
    (h : w.GetHeader authorizationHeader = "Bearer " ++ t) :
    userIdentity P w =
      match P t with
      | (_, some _) =>
        newErrorResponse { w with parseTokenCalls := w.parseTokenCalls ++ [t] }
          StatusUnauthorized "Invalid authorization header"
      | (userId, none) =>
        World.Set { w with parseTokenCalls := w.parseTokenCalls ++ [t] } userCTX (.int userId) := by
  have hne := bearer_ne_empty t
  have hcond : ¬ ((["Bearer", t] : List String).length ≠ 2 ∨
      (["Bearer", t] : List String).getD 0 "" ≠ "Bearer") := by simp
  have h1 : (["Bearer", t] : List String).getD 1 "" = t := rfl
  simp only [userIdentity, h, hne, if_false, SplitN_bearer, callParseToken, if_neg hcond, h1]
  rcases hp : P t with ⟨u, _ | e⟩ <;> rfl

theorem startsWithBearer_iff (header : String) :
    startsWithBearer header = true ↔ ∃ t : String, header = "Bearer " ++ t := by
  unfold startsWithBearer
  rw [List.isPrefixOf_iff_prefix]
  constructor
  · rintro ⟨l, hl⟩
    refine ⟨String.mk l, ?_⟩
    apply String.ext
    rw [String.data_append, ← hl]
  · rintro ⟨t, rfl⟩
    exact ⟨t.data, by rw [String.data_append]⟩

theorem startsWithBearer_false (header : String) (h : startsWithBearer header = false)
    (t : String) : header ≠ "Bearer " ++ t := by
  intro e
  have := (startsWithBearer_iff header).mpr ⟨t, e⟩
  rw [h] at this
  exact Bool.noConfusion this

/-- The four paths of `userIdentity`, by header and `ParseToken` result. -/
theorem path_cases (P : TokenParser) (w : World) :
    (w.GetHeader authorizationHeader = "" ∧
      userIdentity P w = newErrorResponse w StatusUnauthorized "No authorization header") ∨
    (w.GetHeader authorizationHeader ≠ "" ∧
      startsWithBearer (w.GetHeader authorizationHeader) = false ∧
      userIdentity P w =
        newErrorResponse w StatusUnauthorized "Invalid authorization header") ∨
    (∃ (t : String) (u : Int) (e : GoError),
      w.GetHeader authorizationHeader = "Bearer " ++ t ∧ P t = (u, some e) ∧
      userIdentity P w =
        newErrorResponse { w with parseTokenCalls := w.parseTokenCalls ++ [t] }
          StatusUnauthorized "Invalid authorization header") ∨
    (∃ (t : String) (u : Int),
      w.GetHeader authorizationHeader = "Bearer " ++ t ∧ P t = (u, none) ∧
      userIdentity P w =
        World.Set { w with parseTokenCalls := w.parseTokenCalls ++ [t] } userCTX (.int u)) := by
  by_cases hne : w.GetHeader authorizationHeader = ""
  · exact Or.inl ⟨hne, path_absent P w hne⟩
  · cases hs : startsWithBearer (w.GetHeader authorizationHeader) with
    | false =>
      exact Or.inr (Or.inl ⟨hne, rfl,
        path_not_bearer P w hne (startsWithBearer_false _ hs)⟩)
    | true =>
      obtain ⟨t, ht⟩ := (startsWithBearer_iff _).mp hs
      have hb := path_bearer P w t ht
      rcases hp : P t with ⟨u, _ | e⟩
      · rw [hp] at hb
        exact Or.inr (Or.inr (Or.inr ⟨t, u, ht, hp, hb⟩))
      · rw [hp] at hb
        exact Or.inr (Or.inr (Or.inl ⟨t, u, e, ht, hp, hb⟩))

theorem append_singleton_ne_self {α : Type} (l : List α) (a : α) : l ++ [a] ≠ l := by
  intro e
  have := congrArg List.length e
  simp at this

/-! ## Claims -/

/-- C1: when the header is `"Bearer " ++ t` and `ParseToken t` succeeds with
`u`, `userIdentity` does not abort the request, sends no response and logs no
error, and `getUserId` on the resulting context returns `(u, nil)` and leaves
that context as it is. -/
theorem userIdentity_getUserId_roundtrip (P : TokenParser) (w : World) (t : String) (u : Int)
    (hh : w.GetHeader authorizationHeader = "Bearer " ++ t)
    (hp : P t = (u, none)) :
    (userIdentity P w).aborted = w.aborted ∧
    (userIdentity P w).written = w.written ∧
    (userIdentity P w).errorLog = w.errorLog ∧
    getUserId (userIdentity P w) = ((u, none), userIdentity P w) := by
  rw [path_bearer P w t hh, hp]
  refine ⟨rfl, rfl, rfl, ?_⟩
  simp [getUserId, World.Get, World.Set]

theorem userIdentity_getUserId_roundtrip_witness :
    (freshWorld ["Bearer tok"]).GetHeader authorizationHeader = "Bearer " ++ "tok" ∧
    (fun _ => ((7 : Int), (none : Option GoError))) "tok" = (7, none) ∧
    (userIdentity (fun _ => (7, none)) (freshWorld ["Bearer tok"])).aborted = false ∧
    getUserId (userIdentity (fun _ => (7, none)) (freshWorld ["Bearer tok"])) =
      ((7, none), userIdentity (fun _ => (7, none)) (freshWorld ["Bearer tok"])) :=
  ⟨by decide, rfl,
    (userIdentity_getUserId_roundtrip (fun _ => (7, none)) (freshWorld ["Bearer tok"])
      "tok" 7 (by decide) rfl).1,
    (userIdentity_getUserId_roundtrip (fun _ => (7, none)) (freshWorld ["Bearer tok"])
      "tok" 7 (by decide) rfl).2.2.2⟩

/-- C2: when the `Authorization` header is absent (read as the empty string),
`userIdentity` aborts the request and sends status 401 with the error envelope
`No authorization header`; `ParseToken` is not called and the key/value store
of the context is unchanged. -/
theorem userIdentity_no_header (P : TokenParser) (w : World)
    (h : w.GetHeader authorizationHeader = "") :
    (userIdentity P w).aborted = true ∧
    (userIdentity P w).written =
      w.written ++ [⟨401, .obj [("message", .str "No authorization header")]⟩] ∧
    (userIdentity P w).parseTokenCalls = w.parseTokenCalls ∧
    (userIdentity P w).Keys = w.Keys := by
  rw [path_absent P w h]
  exact ⟨rfl, rfl, rfl, rfl⟩

theorem userIdentity_no_header_witness :
    (freshWorld []).Header "Authorization" = [] ∧
    (userIdentity (fun _ => (7, none)) (freshWorld [])).aborted = true ∧
    (userIdentity (fun _ => (7, none)) (freshWorld [])).written =
      [⟨401, .obj [("message", .str "No authorization header")]⟩] ∧
    (userIdentity (fun _ => (7, none)) (freshWorld [])).parseTokenCalls = [] ∧
    (userIdentity (fun _ => (7, none)) (freshWorld [])).Keys = (freshWorld []).Keys :=
  ⟨rfl, userIdentity_no_header (fun _ => (7, none)) (freshWorld []) (by decide)⟩

/-- C3 as stated fails: the header `Bearer a b` is not empty and is not the
tag, one space and exactly one token segment, yet `userIdentity` passes `a b`
to `ParseToken`, and when `ParseToken` accepts it the request is not rejected. -/
theorem userIdentity_malformed_counterexample :
    (freshWorld ["Bearer a b"]).GetHeader authorizationHeader = "Bearer a b" ∧
    "Bearer a b" ≠ "" ∧
    ¬ singleTokenBearer "Bearer a b" ∧
    (userIdentity (fun _ => (0, some ⟨"token is invalid"⟩))
      (freshWorld ["Bearer a b"])).parseTokenCalls = ["a b"] ∧
    (userIdentity (fun _ => (7, none)) (freshWorld ["Bearer a b"])).aborted = false ∧
    (userIdentity (fun _ => (7, none)) (freshWorld ["Bearer a b"])).written = [] := by
  have hh : (freshWorld ["Bearer a b"]).GetHeader authorizationHeader = "Bearer " ++ "a b" := by
    decide
  refine ⟨by decide, by decide, ?_, ?_, ?_, ?_⟩
  · rintro ⟨tok, he, -, hsp⟩
    have hd := congrArg String.data he
    rw [String.data_append] at hd
    have hd2 : "Bearer ".data ++ ['a', ' ', 'b'] = "Bearer ".data ++ tok.data := hd
    have := List.append_cancel_left hd2
    apply hsp
    rw [← this]
    decide
  · rw [path_bearer _ _ "a b" hh]; rfl
  · rw [path_bearer _ _ "a b" hh]; rfl
  · rw [path_bearer _ _ "a b" hh]; rfl

/-- C3, amended: a non-empty header that does not start with `Bearer` and one
space is rejected as malformed: the request is aborted, status 401 with the
envelope `Invalid authorization header` is sent and `ParseToken` is not
called. On a header `"Bearer " ++ t`, whatever `t` is, `t` is passed to
`ParseToken`. -/
theorem userIdentity_rejects_non_bearer (P : TokenParser) (w : World) :
    (w.GetHeader authorizationHeader ≠ "" →
      startsWithBearer (w.GetHeader authorizationHeader) = false →
        (userIdentity P w).aborted = true ∧
        (userIdentity P w).written =
          w.written ++ [⟨401, .obj [("message", .str "Invalid authorization header")]⟩] ∧
        (userIdentity P w).parseTokenCalls = w.parseTokenCalls) ∧
    (∀ t : String, w.GetHeader authorizationHeader = "Bearer " ++ t →
      (userIdentity P w).parseTokenCalls = w.parseTokenCalls ++ [t]) := by
  constructor
  · intro hne hs
    rw [path_not_bearer P w hne (startsWithBearer_false _ hs)]
    exact ⟨rfl, rfl, rfl⟩
  · intro t hh
    rw [path_bearer P w t hh]
    rcases P t with ⟨u, _ | e⟩ <;> rfl

theorem userIdentity_rejects_non_bearer_witness :
    ((userIdentity (fun _ => (7, none)) (freshWorld ["Bearer"])).aborted = true ∧
      (userIdentity (fun _ => (7, none)) (freshWorld ["Bearer"])).written =
        [⟨401, .obj [("message", .str "Invalid authorization header")]⟩] ∧
      (userIdentity (fun _ => (7, none)) (freshWorld ["Bearer"])).parseTokenCalls = []) ∧
    (userIdentity (fun _ => (7, none)) (freshWorld ["Bearer a b"])).parseTokenCalls = ["a b"] :=
  ⟨(userIdentity_rejects_non_bearer (fun _ => (7, none)) (freshWorld ["Bearer"])).1
      (by decide) (by decide),
    (userIdentity_rejects_non_bearer (fun _ => (7, none)) (freshWorld ["Bearer a b"])).2
      "a b" (by decide)⟩

/-- C4: on the header `"Bearer " ++ t`, whatever two errors `ParseToken t`
returns, `userIdentity` ends in the same state: the request is aborted and the
one response sent is status 401 with the envelope `Invalid authorization
header`, in which the error value does not occur. -/
theorem userIdentity_token_errors_collapse (P1 P2 : TokenParser) (w : World) (t : String)
    (u1 u2 : Int) (e1 e2 : GoError)
    (hh : w.GetHeader authorizationHeader = "Bearer " ++ t)
    (h1 : P1 t = (u1, some e1)) (h2 : P2 t = (u2, some e2)) :
    userIdentity P1 w = userIdentity P2 w ∧
    (userIdentity P1 w).aborted = true ∧
    (userIdentity P1 w).written =
      w.written ++ [⟨401, .obj [("message", .str "Invalid authorization header")]⟩] := by
  rw [path_bearer P1 w t hh, path_bearer P2 w t hh, h1, h2]
  exact ⟨rfl, rfl, rfl⟩

theorem userIdentity_token_errors_collapse_witness :
    userIdentity (fun _ => (0, some ⟨"token is expired"⟩)) (freshWorld ["Bearer garbage"]) =
      userIdentity (fun _ => (0, some ⟨"signature is invalid"⟩))
        (freshWorld ["Bearer garbage"]) ∧
    (userIdentity (fun _ => (0, some ⟨"token is expired"⟩))
      (freshWorld ["Bearer garbage"])).aborted = true ∧
    (userIdentity (fun _ => (0, some ⟨"token is expired"⟩))
      (freshWorld ["Bearer garbage"])).written =
      [⟨401, .obj [("message", .str "Invalid authorization header")]⟩] :=
  userIdentity_token_errors_collapse (fun _ => (0, some ⟨"token is expired"⟩))
    (fun _ => (0, some ⟨"signature is invalid"⟩)) (freshWorld ["Bearer garbage"]) "garbage"
    0 0 ⟨"token is expired"⟩ ⟨"signature is invalid"⟩ (by decide) rfl rfl

/-- C5: on a context that is not aborted and holds no value under `userId`,
whatever the header and whatever `ParseToken` returns, exactly one of two
outcomes holds after `userIdentity`: (a) the request is not aborted, no
response was sent and the context holds an integer user id under `userId`;
(b) the request is aborted, one response with status 401 was sent and the
context holds no value under `userId`. -/
theorem userIdentity_exactly_one_outcome (P : TokenParser) (w : World)
    (ha : w.aborted = false) (hk : w.Keys userCTX = none) :
    (proceedsWithIdentity P w ∨ shortCircuitsUnauthorized P w) ∧
    ¬ (proceedsWithIdentity P w ∧ shortCircuitsUnauthorized P w) := by
  unfold proceedsWithIdentity shortCircuitsUnauthorized
  constructor
  · rcases path_cases P w with ⟨-, h⟩ | ⟨-, -, h⟩ | ⟨t, u, e, -, -, h⟩ | ⟨t, u, -, -, h⟩
    · right; rw [h]; exact ⟨rfl, ⟨_, rfl⟩, hk⟩
    · right; rw [h]; exact ⟨rfl, ⟨_, rfl⟩, hk⟩
    · right; rw [h]; exact ⟨rfl, ⟨_, rfl⟩, hk⟩
    · left; rw [h]; exact ⟨ha, rfl, u, by simp [World.Set]⟩
  · rintro ⟨⟨h1, -, -⟩, ⟨h2, -, -⟩⟩
    rw [h1] at h2
    exact Bool.noConfusion h2

theorem userIdentity_exactly_one_outcome_witness :
    (freshWorld ["Bearer tok"]).aborted = false ∧
    (freshWorld ["Bearer tok"]).Keys userCTX = none ∧
    (proceedsWithIdentity (fun _ => (7, none)) (freshWorld ["Bearer tok"]) ∨
      shortCircuitsUnauthorized (fun _ => (7, none)) (freshWorld ["Bearer tok"])) ∧
    ¬ (proceedsWithIdentity (fun _ => (7, none)) (freshWorld ["Bearer tok"]) ∧
      shortCircuitsUnauthorized (fun _ => (7, none)) (freshWorld ["Bearer tok"])) :=
  ⟨rfl, rfl,
    userIdentity_exactly_one_outcome (fun _ => (7, none)) (freshWorld ["Bearer tok"]) rfl rfl⟩

/-- C6: when the context holds no value under `userId`, or a value whose
dynamic type is not `int`, `getUserId` returns id 0 with the non-nil error
`User id not found`, aborts the request and sends status 500; when `getUserId`
returns a nil error, the context holds an `int` under `userId`, the returned
id is exactly that integer and the context is left as it is. -/
theorem getUserId_fail_closed (w : World) :
    ((w.Keys userCTX = none ∨ ∃ v : GoAny, w.Keys userCTX = some v ∧ ∀ n : Int, v ≠ .int n) →
      (getUserId w).1.1 = 0 ∧
      (getUserId w).1.2 = some ⟨"User id not found"⟩ ∧
      (getUserId w).2.aborted = true ∧
      (getUserId w).2.written =
        w.written ++ [⟨500, .obj [("message", .str "User id not found")]⟩] ∧
      (getUserId w).2.Keys = w.Keys) ∧
    ((getUserId w).1.2 = none →
      ∃ n : Int, w.Keys userCTX = some (.int n) ∧ (getUserId w).1.1 = n ∧ (getUserId w).2 = w) := by
  constructor
  · intro h
    have e : getUserId w = ((0, some ⟨"User id not found"⟩),
        newErrorResponse w StatusInternalServerError "User id not found") := by
      rcases h with h | ⟨v, h, hv⟩
      · simp [getUserId, World.Get, h]
      · cases v with
        | int n => exact absurd rfl (hv n)
        | int64 n => simp [getUserId, World.Get, h]
        | string x => simp [getUserId, World.Get, h]
        | bool b => simp [getUserId, World.Get, h]
        | nil => simp [getUserId, World.Get, h]
    rw [e]
    exact ⟨rfl, rfl, rfl, rfl, rfl⟩
  · intro h
    unfold getUserId World.Get at h ⊢
    cases hk : w.Keys userCTX with
    | none => simp [hk] at h
    | some v =>
      cases v with
      | int n => exact ⟨n, rfl, rfl, rfl⟩
      | int64 n => simp [hk] at h
      | string x => simp [hk] at h
      | bool b => simp [hk] at h
      | nil => simp [hk] at h

theorem getUserId_fail_closed_witness :
    ((getUserId (freshWorld [])).1.1 = 0 ∧
      (getUserId (freshWorld [])).1.2 = some ⟨"User id not found"⟩ ∧
      (getUserId (freshWorld [])).2.aborted = true ∧
      (getUserId (freshWorld [])).2.written =
        (freshWorld []).written ++ [⟨500, .obj [("message", .str "User id not found")]⟩] ∧
      (getUserId (freshWorld [])).2.Keys = (freshWorld []).Keys) ∧
    (getUserId ((freshWorld []).Set userCTX (.int64 5))).1.2 = some ⟨"User id not found"⟩ ∧
    (∃ n : Int, ((freshWorld []).Set userCTX (.int 5)).Keys userCTX = some (.int n) ∧
      (getUserId ((freshWorld []).Set userCTX (.int 5))).1.1 = n ∧
      (getUserId ((freshWorld []).Set userCTX (.int 5))).2 =
        (freshWorld []).Set userCTX (.int 5)) :=
  ⟨(getUserId_fail_closed (freshWorld [])).1 (Or.inl rfl),
    ((getUserId_fail_closed ((freshWorld []).Set userCTX (.int64 5))).1
      (Or.inr ⟨.int64 5, rfl, fun _ h => GoAny.noConfusion h⟩)).2.1,
    (getUserId_fail_closed ((freshWorld []).Set userCTX (.int 5))).2 rfl⟩

/-- C7 as stated fails: a request without an `Authorization` header and a
request whose token `ParseToken` rejects are both answered with status 401, but
with two different messages. -/
theorem userIdentity_generic_message_counterexample :
    (userIdentity (fun _ => (0, some ⟨"token is invalid"⟩)) (freshWorld [])).written =
      [⟨401, .obj [("message", .str "No authorization header")]⟩] ∧
    (userIdentity (fun _ => (0, some ⟨"token is invalid"⟩))
      (freshWorld ["Bearer garbage"])).written =
      [⟨401, .obj [("message", .str "Invalid authorization header")]⟩] ∧
    (JSON.obj [("message", .str "No authorization header")]) ≠
      .obj [("message", .str "Invalid authorization header")] := by
  refine ⟨?_, ?_, ?_⟩
  · rw [path_absent _ _ (by decide)]; rfl
  · have hh : (freshWorld ["Bearer garbage"]).GetHeader authorizationHeader =
        "Bearer " ++ "garbage" := by decide
    rw [path_bearer _ _ "garbage" hh]; rfl
  · intro h
    injection h with h
    injection h with h _
    injection h with _ h
    injection h with h
    exact absurd h (by decide)

/-- C7, amended: any two requests that `userIdentity` rejects are answered
with status 401 and an envelope holding one message, and the two messages are
equal exactly when the two headers are both absent or both present: a header
that is malformed and a token that `ParseToken` rejects give the same message,
an absent header gives another one. -/
theorem userIdentity_rejections_status_message (P1 P2 : TokenParser) (w1 w2 : World)
    (h1 : rejects P1 w1) (h2 : rejects P2 w2) :
    ∃ m1 m2 : String,
      (userIdentity P1 w1).written = w1.written ++ [⟨401, .obj [("message", .str m1)]⟩] ∧
      (userIdentity P2 w2).written = w2.written ++ [⟨401, .obj [("message", .str m2)]⟩] ∧
      (m1 = m2 ↔
        (w1.GetHeader authorizationHeader = "" ↔ w2.GetHeader authorizationHeader = "")) := by
  have key : ∀ (P : TokenParser) (w : World), rejects P w →
      (w.GetHeader authorizationHeader = "" ∧ (userIdentity P w).written =
        w.written ++ [⟨401, .obj [("message", .str "No authorization header")]⟩]) ∨
      (w.GetHeader authorizationHeader ≠ "" ∧ (userIdentity P w).written =
        w.written ++ [⟨401, .obj [("message", .str "Invalid authorization header")]⟩]) := by
    intro P w hr
    rcases path_cases P w with ⟨h0, h⟩ | ⟨h0, -, h⟩ | ⟨t, u, e, ht, -, h⟩ |
      ⟨t, u, -, -, h⟩
    · left; rw [h]; exact ⟨h0, rfl⟩
    · right; rw [h]; exact ⟨h0, rfl⟩
    · right; rw [h]; exact ⟨by rw [ht]; exact bearer_ne_empty t, rfl⟩
    · obtain ⟨r, hr⟩ := hr
      rw [h] at hr
      exact absurd hr.symm (append_singleton_ne_self _ _)
  have hmsg : ("No authorization header" : String) ≠ "Invalid authorization header" := by
    decide
  rcases key P1 w1 h1 with ⟨a1, b1⟩ | ⟨a1, b1⟩ <;> rcases key P2 w2 h2 with ⟨a2, b2⟩ | ⟨a2, b2⟩
  · exact ⟨_, _, b1, b2, by simp [a1, a2]⟩
  · exact ⟨_, _, b1, b2, by simp [a1, a2, hmsg]⟩
  · exact ⟨_, _, b1, b2, by simp [a1, a2, hmsg.symm]⟩
  · exact ⟨_, _, b1, b2, by simp [a1, a2]⟩

theorem userIdentity_rejections_status_message_witness :
    rejects (fun _ => (0, some ⟨"token is invalid"⟩)) (freshWorld ["Bearer garbage"]) ∧
    rejects (fun _ => (7, none)) (freshWorld ["Basic abc"]) ∧
    ∃ m1 m2 : String,
      (userIdentity (fun _ => (0, some ⟨"token is invalid"⟩))
        (freshWorld ["Bearer garbage"])).written =
        (freshWorld ["Bearer garbage"]).written ++ [⟨401, .obj [("message", .str m1)]⟩] ∧
      (userIdentity (fun _ => (7, none)) (freshWorld ["Basic abc"])).written =
        (freshWorld ["Basic abc"]).written ++ [⟨401, .obj [("message", .str m2)]⟩] ∧
      (m1 = m2 ↔
        ((freshWorld ["Bearer garbage"]).GetHeader authorizationHeader = "" ↔
          (freshWorld ["Basic abc"]).GetHeader authorizationHeader = "")) :=
  have r1 : rejects (fun _ => (0, some ⟨"token is invalid"⟩)) (freshWorld ["Bearer garbage"]) :=
    ⟨⟨401, .obj [("message", .str "Invalid authorization header")]⟩, by
      rw [path_bearer _ _ "garbage" (by decide)]; rfl⟩
  have r2 : rejects (fun _ => (7, none)) (freshWorld ["Basic abc"]) :=
    ⟨⟨401, .obj [("message", .str "Invalid authorization header")]⟩, by
      rw [path_not_bearer _ _ (by decide)
        (startsWithBearer_false _ (by decide))]; rfl⟩
  ⟨r1, r2, userIdentity_rejections_status_message _ _ _ _ r1 r2⟩

/-- C8: on every rejecting path of `userIdentity` (header absent, header not
starting with `Bearer` and a space, `ParseToken` returning an error) the
request is aborted, the handlers that follow in the chain do not run, and the
key/value store of the context is the one before the call. -/
theorem userIdentity_reject_frame (P : TokenParser) (w : World) (rest : List (World → World))
    (h : w.GetHeader authorizationHeader = "" ∨
      startsWithBearer (w.GetHeader authorizationHeader) = false ∨
      ∃ t : String, w.GetHeader authorizationHeader = "Bearer " ++ t ∧ (P t).2 ≠ none) :
    (userIdentity P w).aborted = true ∧
    runChain (userIdentity P :: rest) w = userIdentity P w ∧
    (userIdentity P w).Keys = w.Keys := by
  have key : (userIdentity P w).aborted = true ∧ (userIdentity P w).Keys = w.Keys := by
    rcases h with h | h | ⟨t, ht, hp⟩
    · rw [path_absent P w h]; exact ⟨rfl, rfl⟩
    · by_cases hne : w.GetHeader authorizationHeader = ""
      · rw [path_absent P w hne]; exact ⟨rfl, rfl⟩
      · rw [path_not_bearer P w hne (startsWithBearer_false _ h)]; exact ⟨rfl, rfl⟩
    · rw [path_bearer P w t ht]
      rcases hq : P t with ⟨u, _ | e⟩
      · rw [hq] at hp; exact absurd rfl hp
      · exact ⟨rfl, rfl⟩
  refine ⟨key.1, ?_, key.2⟩
  simp [runChain, key.1]

theorem userIdentity_reject_frame_witness :
    (∃ t : String, (freshWorld ["Bearer garbage"]).GetHeader authorizationHeader =
        "Bearer " ++ t ∧
      ((fun _ => (0, some ⟨"token is invalid"⟩) : TokenParser) t).2 ≠ none) ∧
    (userIdentity (fun _ => (0, some ⟨"token is invalid"⟩))
      (freshWorld ["Bearer garbage"])).aborted = true ∧
    runChain [userIdentity (fun _ => (0, some ⟨"token is invalid"⟩)),
        fun w => w.Set "seen" (.bool true)] (freshWorld ["Bearer garbage"]) =
      userIdentity (fun _ => (0, some ⟨"token is invalid"⟩)) (freshWorld ["Bearer garbage"]) ∧
    (userIdentity (fun _ => (0, some ⟨"token is invalid"⟩))
      (freshWorld ["Bearer garbage"])).Keys = (freshWorld ["Bearer garbage"]).Keys :=
  ⟨⟨"garbage", by decide, by decide⟩,
    userIdentity_reject_frame (fun _ => (0, some ⟨"token is invalid"⟩))
      (freshWorld ["Bearer garbage"]) [fun w => w.Set "seen" (.bool true)]
      (Or.inr (Or.inr ⟨"garbage", by decide, by decide⟩))⟩

/-- C9: two `User` values that differ only in `Id` have the same JSON
encoding, and the encoded object has exactly the keys `name`, `username` and
`password`, holding the three strings: `Id` does not occur in it. -/
theorem User_toJSON_hides_Id (u1 u2 : User)
    (hn : u1.Name = u2.Name) (hu : u1.Username = u2.Username) (hp : u1.Password = u2.Password) :
    u1.toJSON = u2.toJSON ∧
    u1.toJSON.keys = ["name", "username", "password"] ∧
    u1.toJSON = .obj [("name", .str u1.Name), ("username", .str u1.Username),
      ("password", .str u1.Password)] := by
  have h : ∀ u : User, u.toJSON = .obj [("name", .str u.Name), ("username", .str u.Username),
      ("password", .str u.Password)] := by
    intro u
    simp [User.toJSON, User.fields, marshalFields]
  refine ⟨?_, ?_, h u1⟩
  · rw [h u1, h u2, hn, hu, hp]
  · rw [h u1]; rfl

theorem User_toJSON_hides_Id_witness :
    (⟨1, "Alice", "alice", "secret"⟩ : User) ≠ ⟨2, "Alice", "alice", "secret"⟩ ∧
    (⟨1, "Alice", "alice", "secret"⟩ : User).toJSON =
      (⟨2, "Alice", "alice", "secret"⟩ : User).toJSON ∧
    (⟨1, "Alice", "alice", "secret"⟩ : User).toJSON.keys = ["name", "username", "password"] ∧
    (⟨1, "Alice", "alice", "secret"⟩ : User).toJSON =
      .obj [("name", .str "Alice"), ("username", .str "alice"), ("password", .str "secret")] :=
  ⟨by decide, User_toJSON_hides_Id ⟨1, "Alice", "alice", "secret"⟩
    ⟨2, "Alice", "alice", "secret"⟩ rfl rfl rfl⟩

/-- C10: on the header `"Bearer " ++ t`, for every string `t`, `userIdentity`
calls `ParseToken` exactly once, with exactly `t`; on a header that does not
start with `Bearer` and a space it does not call `ParseToken`. -/
theorem userIdentity_parseToken_calls (P : TokenParser) (w : World) :
    (∀ t : String, w.GetHeader authorizationHeader = "Bearer " ++ t →
      (userIdentity P w).parseTokenCalls = w.parseTokenCalls ++ [t]) ∧
    (startsWithBearer (w.GetHeader authorizationHeader) = false →
      (userIdentity P w).parseTokenCalls = w.parseTokenCalls) := by
  constructor
  · intro t hh
    rw [path_bearer P w t hh]
    rcases P t with ⟨u, _ | e⟩ <;> rfl
  · intro hs
    by_cases hne : w.GetHeader authorizationHeader = ""
    · rw [path_absent P w hne]; rfl
    · rw [path_not_bearer P w hne (startsWithBearer_false _ hs)]; rfl

theorem userIdentity_parseToken_calls_witness :
    (userIdentity (fun _ => (7, none)) (freshWorld ["Bearer a b"])).parseTokenCalls = ["a b"] ∧
    (userIdentity (fun _ => (7, none)) (freshWorld ["Bearer "])).parseTokenCalls = [""] ∧
    (userIdentity (fun _ => (7, none)) (freshWorld ["bearer x"])).parseTokenCalls = [] ∧
    (userIdentity (fun _ => (7, none)) (freshWorld ["Bearer"])).parseTokenCalls = [] ∧
    (userIdentity (fun _ => (7, none)) (freshWorld ["Token x"])).parseTokenCalls = [] :=
  ⟨(userIdentity_parseToken_calls (fun _ => (7, none)) (freshWorld ["Bearer a b"])).1
      "a b" (by decide),
    (userIdentity_parseToken_calls (fun _ => (7, none)) (freshWorld ["Bearer "])).1
      "" (by decide),
    (userIdentity_parseToken_calls (fun _ => (7, none)) (freshWorld ["bearer x"])).2
      (by decide),
    (userIdentity_parseToken_calls (fun _ => (7, none)) (freshWorld ["Bearer"])).2
      (by decide),
    (userIdentity_parseToken_calls (fun _ => (7, none)) (freshWorld ["Token x"])).2
      (by decide)⟩

end TodoApp
